import Mathlib

/-!
# Expense-management approval workflow: a shallow embedding

This development embeds the approval-workflow core of the expense-management
application (src/js/app.js, together with the older engine variant shipped as
src/unnamed/part_000) and proves properties of the embedded functions.

Conventions of the embedding:
* JS strings stay `String`; status values ("PENDING", "APPROVED", "REJECTED"),
  decision values ("APPROVE", "REJECT") and role names are string literals, as
  in the source.
* Timestamps (`nowIso()`) are threaded as an explicit `now : String` argument.
* Thrown `Error` messages become `Except.error` with the thrown message; a
  throw happens before any mutation in the source, so an error result leaves
  the caller's state untouched, exactly like the JS functions.
* Fields of the expense record that the workflow never reads (amount,
  currency, category, description, receipt, date, createdAt) are omitted.
-/

namespace EMS

/-- One decision record `{ userId, decision, comment, at }` pushed onto a
step's `approvals` array. -/
structure Approval where
  userId : String
  decision : String
  comment : String
  atIso : String
deriving Repr, DecidableEq

/-- One step record `{ role, approvals }` of an expense's approval chain. -/
structure StepRec where
  role : String
  approvals : List Approval
deriving Repr, DecidableEq

/-- The `approvals` block of an expense: `{ stepIndex, steps }`. -/
structure ApprovalsBlock where
  stepIndex : Nat
  steps : List StepRec
deriving Repr, DecidableEq

/-- One audit entry `{ at, status, by }` of `expense.history`. -/
structure HistoryEntry where
  atIso : String
  status : String
  byUser : String
deriving Repr, DecidableEq

/-- An expense record.  Every expense the application creates carries an
`approvals` block (seed data and `handleExpenseSubmit` both build one), so the
block is part of the structure. -/
structure Expense where
  id : String
  userId : String
  status : String
  approvals : ApprovalsBlock
  history : List HistoryEntry
deriving Repr, DecidableEq

/-- A user record; `managerId` is the empty string when unset (both `''` and
an absent field are falsy in JS, which is all the source ever tests). -/
structure User where
  id : String
  name : String
  roles : List String
  managerId : String
deriving Repr, DecidableEq

structure PercentageRule where
  enabled : Bool
  threshold : Int
deriving Repr, DecidableEq

structure SpecificApproverRule where
  enabled : Bool
  role : String
deriving Repr, DecidableEq

structure HybridRule where
  enabled : Bool
deriving Repr, DecidableEq

/-- The rule-set singleton. -/
structure Rules where
  steps : List String
  percentageRule : PercentageRule
  specificApproverRule : SpecificApproverRule
  hybrid : HybridRule
deriving Repr, DecidableEq

/-- `BASE_ROLES` from src/js/app.js line 38. -/
def BASE_ROLES : List String :=
  ["EMPLOYEE", "MANAGER", "FINANCE", "DIRECTOR", "ADMIN", "CFO"]

/-- `DEFAULT_RULES` from src/js/app.js lines 44-49. -/
def DEFAULT_RULES : Rules :=
  { steps := ["MANAGER", "FINANCE", "DIRECTOR"]
    percentageRule := { enabled := true, threshold := 50 }
    specificApproverRule := { enabled := true, role := "CFO" }
    hybrid := { enabled := true } }

/-- `roleList(u)` — `(u?.roles || []).slice()`. -/
def roleList (u : User) : List String := u.roles

/-- `hasRole(u, role)` — `!!roleList(u).includes(role)` for a string role. -/
def hasRole (u : User) (role : String) : Bool := (roleList u).contains role

/-- The dynamic JS value that src/js/app.js passes around as the "role" of the
current step.  `getCurrentStep` indexes `expense.approvals.steps`, whose
elements are step OBJECTS `{ role, approvals }`, so the value it labels `role`
is either such an object or `null`; a genuine role-name string only occurs
when callers pass one directly. -/
inductive RoleVal where
  | nullv : RoleVal
  | str : String → RoleVal
  | stepObj : StepRec → RoleVal
deriving Repr, DecidableEq

/-- JS truthiness of a `RoleVal`: `null` and `''` are falsy, any object is
truthy. -/
def truthyRole : RoleVal → Bool
  | RoleVal.nullv => false
  | RoleVal.str s => s ≠ ""
  | RoleVal.stepObj _ => true

/-- `roleList(u).includes(role)` for a dynamic argument: an array of strings
never `includes` a non-string value. -/
def hasRoleVal (u : User) : RoleVal → Bool
  | RoleVal.str s => hasRole u s
  | _ => false

/-- `Array.from(new Set(xs))` — the first occurrence of each element, in
order.  (Structural formulation: dedup the tail, then drop the head's later
occurrences; this keeps exactly the first occurrences, like a JS `Set`.) -/
def jsSetDedup : List String → List String
  | [] => []
  | x :: xs => x :: (jsSetDedup xs).filter (fun y => y ≠ x)

/-- `getCurrentStep(expense)` from src/js/app.js lines 309-314.

`const steps = expense?.approvals?.steps || getRules().steps || []`: every
expense record carries its `approvals` block and a JS array (even an empty
one) is truthy, so the expense's own snapshot is always selected and the
`rules` fallback is dead.  `const role = steps[idx] || null` then yields the
step OBJECT at the cursor (truthy), or `null` past the end — not the step's
role name. -/
def getCurrentStep (rules : Rules) (e : Expense) : Nat × RoleVal :=
  let _ := rules
  let idx := e.approvals.stepIndex
  match e.approvals.steps.get? idx with
  | some st => (idx, RoleVal.stepObj st)
  | none => (idx, RoleVal.nullv)

/-- `eligibleApproverIds(expense, role)` from src/js/app.js lines 376-384. -/
def eligibleApproverIds (users : List User) (e : Expense) (role : RoleVal) :
    List String :=
  if truthyRole role = false then []
  else if role = RoleVal.str "MANAGER" then
    match users.find? (fun u => u.id = e.userId) with
    | some emp => if emp.managerId ≠ "" then [emp.managerId] else []
    | none => []
  else
    (users.filter (fun u => hasRoleVal u role)).map (fun u => u.id)

/-- `recordHistory(expense, status, by)` from src/js/app.js lines 323-325. -/
def recordHistory (now status byUser : String) (e : Expense) : Expense :=
  { e with history := e.history ++ [{ atIso := now, status := status, byUser := byUser }] }

/-- `approvals[approvals.length - 1]?.userId || ''`: the author of the most
recent decision of a step, or the empty string. -/
def lastDecider (approvals : List Approval) : String :=
  (approvals.getLast?.map (fun a => a.userId)).getD ""

/-- `approverEntry(expense)` from src/js/app.js lines 327-332: `null` when
`getCurrentStep` produced no truthy role value, else the step record at the
cursor. -/
def approverEntry (rules : Rules) (e : Expense) : Option StepRec :=
  match getCurrentStep rules e with
  | (_, RoleVal.nullv) => none
  | (idx, _) => e.approvals.steps.get? idx

/-- `rulesEval(expense)` from src/js/app.js lines 334-373.

Note that `cur.role` is the step object (see `getCurrentStep`), so the
`eligible` list computed below is `eligibleApproverIds` applied to a
non-string value. -/
def rulesEval (users : List User) (rules : Rules) (now : String) (e : Expense) :
    Expense :=
  let cur := getCurrentStep rules e
  if truthyRole cur.2 = false then e
  else
    match e.approvals.steps.get? cur.1 with
    | none => e
    | some step =>
      let approvals := step.approvals
      let rejected := approvals.any (fun a => a.decision = "REJECT")
      if rejected then
        recordHistory now "REJECTED" (lastDecider approvals)
          { e with status := "REJECTED" }
      else
        let eligible := eligibleApproverIds users e cur.2
        if eligible.length = 0 then
          let next := e.approvals.stepIndex + 1
          if e.approvals.steps.length ≤ next then
            recordHistory now "APPROVED" (lastDecider approvals)
              { e with status := "APPROVED" }
          else
            { e with approvals := { e.approvals with stepIndex := next } }
        else
          let approvedUserIds :=
            jsSetDedup ((approvals.filter (fun a => a.decision = "APPROVE")).map
              (fun a => a.userId))
          let pass := eligible.all (fun id => approvedUserIds.contains id)
          if pass then
            let next := e.approvals.stepIndex + 1
            if e.approvals.steps.length ≤ next then
              recordHistory now "APPROVED" (lastDecider approvals)
                { e with status := "APPROVED" }
            else
              { e with approvals := { e.approvals with stepIndex := next } }
          else e

/-- Replace the first expense whose `id` matches — the effect of mutating the
record returned by `expenses.find(...)` and then storing the whole list. -/
def setFirst (expenses : List Expense) (expenseId : String) (e2 : Expense) :
    List Expense :=
  match expenses with
  | [] => []
  | e :: rest =>
    if e.id = expenseId then e2 :: rest else e :: setFirst rest expenseId e2

/-- `approveOrReject(expenseId, userId, decision, comment)` from
src/js/app.js lines 386-399. -/
def approveOrReject (users : List User) (rules : Rules) (now : String)
    (expenses : List Expense) (expenseId userId decision comment : String) :
    Except String (List Expense × String) :=
  match expenses.find? (fun e => e.id = expenseId) with
  | none => Except.error "Expense not found"
  | some expense =>
    if expense.status ≠ "PENDING" then Except.error "Expense is not pending"
    else
      match approverEntry rules expense with
      | none => Except.error "No active approval step"
      | some step =>
        let a : Approval :=
          { userId := userId
            decision := if decision = "APPROVE" then "APPROVE" else "REJECT"
            comment := comment
            atIso := now }
        let e1 :=
          { expense with approvals :=
              { expense.approvals with steps :=
                  (expense.approvals.steps.set expense.approvals.stepIndex
                    { step with approvals := step.approvals ++ [a] }) } }
        let e2 := rulesEval users rules now e1
        Except.ok (setFirst expenses expenseId e2, e2.status)

/-- `adminOverride(expenseId, status, adminId)` from src/js/app.js
lines 401-410.  The cursor is marked concluded relative to the expense's own
steps: `e.approvals.stepIndex = e.approvals.steps.length`. -/
def adminOverride (now : String) (expenses : List Expense)
    (expenseId status adminId : String) : Except String (List Expense) :=
  match expenses.find? (fun e => e.id = expenseId) with
  | none => Except.error "Expense not found"
  | some e =>
    let e1 :=
      { e with status := status
               approvals := { e.approvals with stepIndex := e.approvals.steps.length } }
    Except.ok (setFirst expenses expenseId (recordHistory now status adminId e1))

/-- The expense record built by `handleExpenseSubmit` (src/js/app.js
lines 894-899): status PENDING, cursor 0, one empty step per entry of the
rule set's `steps`, one PENDING history entry by the submitter. -/
def newExpense (rules : Rules) (now id userId : String) : Expense :=
  { id := id
    userId := userId
    status := "PENDING"
    approvals :=
      { stepIndex := 0
        steps := rules.steps.map (fun r => { role := r, approvals := [] }) }
    history := [{ atIso := now, status := "PENDING", byUser := userId }] }

/-- The persistent state the role registry touches: the users collection, the
rule set and the custom-role list. -/
structure AppState where
  users : List User
  rules : Rules
  customRoles : List String
deriving Repr, DecidableEq

/-- `setCustomRoles(list)` stores `Array.from(new Set(list))`. -/
def setCustomRoles (list : List String) : List String := jsSetDedup list

/-- `removeRole(role)` from src/js/app.js lines 1114-1135 (the persistent
effects; UI refresh calls are omitted).  The `Array.isArray(r.steps)` guard
always holds for the typed rule set. -/
def removeRole (role : String) (st : AppState) : AppState :=
  let custom := setCustomRoles (st.customRoles.filter (fun r => r ≠ role))
  let users := st.users.map (fun u => { u with roles := u.roles.filter (fun x => x ≠ role) })
  let r := st.rules
  let r :=
    if r.specificApproverRule.role = role then
      { r with specificApproverRule := { r.specificApproverRule with role := "CFO" } }
    else r
  let steps := r.steps.filter (fun x => x ≠ role)
  let steps := if steps.length = 0 then ["MANAGER", "FINANCE", "DIRECTOR"] else steps
  { users := users, rules := { r with steps := steps }, customRoles := custom }

/-- The roles-list click handler (src/js/app.js lines 980-988): chips rendered
for `BASE_ROLES` carry `data-base="true"` and the handler returns before
calling `removeRole`, so a built-in role is never removed through the UI —
silently, with no error raised. -/
def rolesListClick (role : String) (st : AppState) : AppState :=
  if BASE_ROLES.contains role then st else removeRole role st

/-!
## The legacy engine (src/unnamed/part_000)

The repository also ships an older variant of the same script whose approval
functions differ: its `getCurrentStep` reads the LIVE rule set's `steps`
(role-name strings) instead of the expense's snapshot, and its `rulesEval`
implements the specific-approver short-circuit and a percentage /
at-least-one-approval pass condition instead of unanimity.
-/

namespace Legacy

/-- `clamp(n, min, max)` — `Math.min(Math.max(n, min), max)`. -/
def clamp (n lo hi : Int) : Int := min (max n lo) hi

/-- `threshold || 50`: JS `||` replaces the falsy number 0 by the fallback. -/
def jsOrInt (n fallback : Int) : Int := if n = 0 then fallback else n

/-- `getCurrentStep(expense)` from src/unnamed/part_000 lines 249-255: the
steps come from the live rule set, so `role` here really is a role-name
string (`steps[idx] || null` maps an out-of-range index, and the falsy empty
string, to `null`). -/
def getCurrentStep (rules : Rules) (e : Expense) : Nat × Option String :=
  let idx := e.approvals.stepIndex
  let role :=
    match rules.steps.get? idx with
    | some r => if r = "" then none else some r
    | none => none
  (idx, role)

/-- `approverEntry(expense)` from src/unnamed/part_000 lines 273-278: the
expense's step record at the cursor (`undefined`, i.e. `none`, when the
expense carries fewer step records than the live chain). -/
def approverEntry (rules : Rules) (e : Expense) : Option StepRec :=
  match getCurrentStep rules e with
  | (_, none) => none
  | (idx, some _) => e.approvals.steps.get? idx

/-- The inner loop of the specific-approver scan (src/unnamed/part_000
lines 287-297): the first approval in the list whose author exists and holds
`specRole`, with decision APPROVE. -/
def findSpecificApprover (users : List User) (specRole : String) :
    List Approval → Option User
  | [] => none
  | a :: rest =>
    match users.find? (fun x => x.id = a.userId) with
    | some u =>
      if a.decision = "APPROVE" ∧ hasRole u specRole then some u
      else findSpecificApprover users specRole rest
    | none => findSpecificApprover users specRole rest

/-- The outer loop of the specific-approver scan: all steps are scanned, in
order, not just the current one. -/
def findSpecificApproverInSteps (users : List User) (specRole : String) :
    List StepRec → Option User
  | [] => none
  | s :: rest =>
    match findSpecificApprover users specRole s.approvals with
    | some u => some u
    | none => findSpecificApproverInSteps users specRole rest

/-- `rulesEval(expense)` from src/unnamed/part_000 lines 280-332.

The percentage comparison `(approved/total)*100 >= clamp(threshold||50,1,100)`
is modelled with exact rational arithmetic; JS computes it in binary floating
point, which agrees on all the small counts this development evaluates. -/
def rulesEval (users : List User) (rules : Rules) (now : String) (e : Expense) :
    Expense :=
  match approverEntry rules e with
  | none => e
  | some step =>
    match (if rules.specificApproverRule.enabled then
             findSpecificApproverInSteps users rules.specificApproverRule.role
               e.approvals.steps
           else none) with
    | some u =>
      recordHistory now "APPROVED" u.id
        { e with status := "APPROVED"
                 approvals := { e.approvals with stepIndex := rules.steps.length } }
    | none =>
      let approvals := step.approvals
      let total := approvals.length
      let approved := (approvals.filter (fun a => a.decision = "APPROVE")).length
      let rejected := (approvals.filter (fun a => a.decision = "REJECT")).length
      if rejected > 0 then
        recordHistory now "REJECTED" (lastDecider approvals)
          { e with status := "REJECTED" }
      else
        let pass :=
          if rules.percentageRule.enabled ∧ total > 0 then
            decide ((approved : ℚ) / (total : ℚ) * 100 ≥
              ((clamp (jsOrInt rules.percentageRule.threshold 50) 1 100 : Int) : ℚ))
          else decide (approved > 0)
        if pass then
          let next := e.approvals.stepIndex + 1
          if rules.steps.length ≤ next then
            recordHistory now "APPROVED" (lastDecider approvals)
              { e with status := "APPROVED" }
          else
            { e with approvals := { e.approvals with stepIndex := next } }
        else e

end Legacy

/-!
## Concrete records used by the witnesses and counterexamples

The user records mirror the seed data of the application (src/js/app.js
lines 225-231). -/

def uEmp : User := { id := "u-emp", name := "Evan Employee", roles := ["EMPLOYEE"], managerId := "u-manager" }

def uMgr : User := { id := "u-manager", name := "Mary Manager", roles := ["MANAGER"], managerId := "" }

def uX : User := { id := "u-x", name := "Xavier Extra", roles := ["EMPLOYEE"], managerId := "" }

def uCfo : User := { id := "u-cfo", name := "Cindy CFO", roles := ["FINANCE", "CFO"], managerId := "" }

/-- An employee with no manager set (`managerId` empty). -/
def uSolo : User := { id := "u-solo", name := "Sam Solo", roles := ["EMPLOYEE"], managerId := "" }

def c1Users : List User := [uEmp, uMgr, uX]

def c1Rules : Rules :=
  { steps := ["MANAGER", "FINANCE"]
    percentageRule := { enabled := false, threshold := 50 }
    specificApproverRule := { enabled := false, role := "CFO" }
    hybrid := { enabled := false } }

/-- A pending expense at its MANAGER step whose single APPROVE decision was
made by `u-x`, who is not the submitter's manager. -/
def c1Expense : Expense :=
  { id := "e1", userId := "u-emp", status := "PENDING"
    approvals :=
      { stepIndex := 0
        steps := [{ role := "MANAGER", approvals := [{ userId := "u-x", decision := "APPROVE", comment := "", atIso := "t0" }] },
                  { role := "FINANCE", approvals := [] }] }
    history := [] }

def c2Users : List User := [uEmp, uMgr, uCfo]

def c2Rules : Rules :=
  { steps := ["MANAGER", "FINANCE"]
    percentageRule := { enabled := false, threshold := 50 }
    specificApproverRule := { enabled := true, role := "CFO" }
    hybrid := { enabled := true } }

/-- A pending expense at its MANAGER step whose single decision is an APPROVE
by `u-cfo`, who holds the configured specific-approver role. -/
def c2Expense : Expense :=
  { id := "e2", userId := "u-emp", status := "PENDING"
    approvals :=
      { stepIndex := 0
        steps := [{ role := "MANAGER", approvals := [{ userId := "u-cfo", decision := "APPROVE", comment := "ok", atIso := "t0" }] },
                  { role := "FINANCE", approvals := [] }] }
    history := [] }

/-- A pending expense whose current (first) step has zero decisions and whose
LATER step holds an APPROVE by the specific approver `u-cfo`. -/
def c2LegacyExpense : Expense :=
  { id := "e2b", userId := "u-emp", status := "PENDING"
    approvals :=
      { stepIndex := 0
        steps := [{ role := "MANAGER", approvals := [] },
                  { role := "FINANCE", approvals := [{ userId := "u-cfo", decision := "APPROVE", comment := "late", atIso := "t0" }] }] }
    history := [] }

/-- A pending expense whose current step carries an APPROVE followed by a
REJECT. -/
def c3Expense : Expense :=
  { id := "e3", userId := "u-emp", status := "PENDING"
    approvals :=
      { stepIndex := 0
        steps := [{ role := "MANAGER", approvals :=
                      [{ userId := "u-manager", decision := "APPROVE", comment := "ok", atIso := "t0" },
                       { userId := "u-x", decision := "REJECT", comment := "no", atIso := "t1" }] },
                  { role := "FINANCE", approvals := [] }] }
    history := [] }

/-- The current step record of `c3Expense`. -/
def c3Step : StepRec :=
  { role := "MANAGER"
    approvals :=
      [{ userId := "u-manager", decision := "APPROVE", comment := "ok", atIso := "t0" },
       { userId := "u-x", decision := "REJECT", comment := "no", atIso := "t1" }] }

def c4Users : List User := [uSolo, uX]

/-- Empty eligible set (submitter has no manager), but a REJECT recorded at
the current step. -/
def c4RejectExpense : Expense :=
  { id := "e4a", userId := "u-solo", status := "PENDING"
    approvals :=
      { stepIndex := 0
        steps := [{ role := "MANAGER", approvals := [{ userId := "u-x", decision := "REJECT", comment := "no", atIso := "t0" }] },
                  { role := "FINANCE", approvals := [] }] }
    history := [] }

/-- Empty eligible set, no decisions, single-step chain: advancing would
exhaust the chain. -/
def c4ExhaustExpense : Expense :=
  { id := "e4b", userId := "u-solo", status := "PENDING"
    approvals := { stepIndex := 0, steps := [{ role := "MANAGER", approvals := [] }] }
    history := [] }

/-- Empty eligible set, no decisions, two-step chain: advancing does not
exhaust the chain. -/
def c4SkipExpense : Expense :=
  { id := "e4c", userId := "u-solo", status := "PENDING"
    approvals :=
      { stepIndex := 0
        steps := [{ role := "MANAGER", approvals := [] }, { role := "FINANCE", approvals := [] }] }
    history := [] }

/-- A concluded (APPROVED) expense. -/
def c6Expense : Expense :=
  { id := "e6", userId := "u-emp", status := "APPROVED"
    approvals :=
      { stepIndex := 3
        steps := [{ role := "MANAGER", approvals := [] }, { role := "FINANCE", approvals := [] },
                  { role := "DIRECTOR", approvals := [] }] }
    history := [{ atIso := "t0", status := "APPROVED", byUser := "u-dir" }] }

def c6Expenses : List Expense := [c6Expense]

def c7Expense : Expense :=
  { id := "e7", userId := "u-emp", status := "PENDING"
    approvals :=
      { stepIndex := 1
        steps := [{ role := "MANAGER", approvals := [] }, { role := "FINANCE", approvals := [] }] }
    history := [{ atIso := "t0", status := "PENDING", byUser := "u-emp" }] }

def c7Expenses : List Expense := [c7Expense]

/-- A state with one user who holds the built-in MANAGER role. -/
def c8State : AppState :=
  { users := [{ id := "u1", name := "Una", roles := ["MANAGER", "EMPLOYEE"], managerId := "" }]
    rules := DEFAULT_RULES
    customRoles := [] }

/-- A state with a custom role LEGAL that appears in a user's role set, in
the rule chain (as its only entry) and as the specific-approver role. -/
def c9State : AppState :=
  { users := [{ id := "u1", name := "Una", roles := ["EMPLOYEE", "LEGAL"], managerId := "" }]
    rules :=
      { steps := ["LEGAL"]
        percentageRule := { enabled := true, threshold := 50 }
        specificApproverRule := { enabled := true, role := "LEGAL" }
        hybrid := { enabled := true } }
    customRoles := ["LEGAL"] }

def c10Expense : Expense :=
  { id := "e10", userId := "u-emp", status := "PENDING"
    approvals :=
      { stepIndex := 0
        steps := [{ role := "MANAGER", approvals := [] }, { role := "FINANCE", approvals := [] }] }
    history := [] }

def c10Expenses : List Expense := [c10Expense]

/-!
## Helper lemmas
-/

/-- An element of the deduplicated list was in the original list. -/
lemma mem_jsSetDedup {a : String} : ∀ {l : List String}, a ∈ jsSetDedup l → a ∈ l := by
  intro l
  induction l with
  | nil => simp [jsSetDedup]
  | cons x xs ih =>
    rw [jsSetDedup]
    intro h
    rcases List.mem_cons.mp h with h | h
    · exact h ▸ List.mem_cons_self x xs
    · exact List.mem_cons_of_mem x (ih (List.mem_of_mem_filter h))

/-- `eligibleApproverIds` applied to a step object — the value `rulesEval`
actually passes — is always empty: a string array never `includes` an
object. -/
lemma eligibleApproverIds_stepObj (users : List User) (e : Expense) (st : StepRec) :
    eligibleApproverIds users e (RoleVal.stepObj st) = [] := by
  simp [eligibleApproverIds, truthyRole, hasRoleVal]

/-- Setting the entry at an in-range index is observed by the index
lookup. -/
lemma getElem?_set_self {α : Type} (l : List α) (n : Nat) (a b : α)
    (h : l[n]? = some b) : (l.set n a)[n]? = some a := by
  induction l generalizing n with
  | nil => simp at h
  | cons x xs ih =>
    cases n with
    | zero => simp [List.set]
    | succ m => simpa [List.set] using ih m (by simpa using h)

/-- `rulesEval` is the identity when the cursor is past the end of the
chain. -/
lemma rulesEval_none (users : List User) (rules : Rules) (now : String) (e : Expense)
    (h : e.approvals.steps[e.approvals.stepIndex]? = none) :
    rulesEval users rules now e = e := by
  simp [rulesEval, getCurrentStep, h, truthyRole]

/-- `rulesEval` on a current step containing a REJECT: the rejection
short-circuit. -/
lemma rulesEval_rejected (users : List User) (rules : Rules) (now : String)
    (e : Expense) (step : StepRec)
    (h : e.approvals.steps[e.approvals.stepIndex]? = some step)
    (hr : step.approvals.any (fun a => a.decision = "REJECT") = true) :
    rulesEval users rules now e =
      recordHistory now "REJECTED" (lastDecider step.approvals)
        { e with status := "REJECTED" } := by
  have hex : ∃ x ∈ step.approvals, x.decision = "REJECT" := by simpa using hr
  simp [rulesEval, getCurrentStep, h, truthyRole, hex]

/-- `rulesEval` on a current step with no REJECT: the computed `eligible`
list is empty (it is `eligibleApproverIds` of the step object), so the
auto-skip branch always runs. -/
lemma rulesEval_advance (users : List User) (rules : Rules) (now : String)
    (e : Expense) (step : StepRec)
    (h : e.approvals.steps[e.approvals.stepIndex]? = some step)
    (hr : step.approvals.any (fun a => a.decision = "REJECT") = false) :
    rulesEval users rules now e =
      if e.approvals.steps.length ≤ e.approvals.stepIndex + 1 then
        recordHistory now "APPROVED" (lastDecider step.approvals)
          { e with status := "APPROVED" }
      else
        { e with approvals := { e.approvals with stepIndex := e.approvals.stepIndex + 1 } } := by
  have hnex : ¬ ∃ x ∈ step.approvals, x.decision = "REJECT" := by
    simpa using hr
  simp [rulesEval, getCurrentStep, h, truthyRole, hnex, eligibleApproverIds_stepObj]

/-- Evaluation never touches the chain itself: the step records (roles and
recorded decisions) survive `rulesEval` unchanged. -/
lemma rulesEval_preserves_steps (users : List User) (rules : Rules) (now : String)
    (e : Expense) :
    (rulesEval users rules now e).approvals.steps = e.approvals.steps := by
  cases h : e.approvals.steps[e.approvals.stepIndex]? with
  | none => rw [rulesEval_none users rules now e h]
  | some step =>
    cases hr : step.approvals.any (fun a => a.decision = "REJECT") with
    | true => rw [rulesEval_rejected users rules now e step h hr]; rfl
    | false =>
      rw [rulesEval_advance users rules now e step h hr]
      split <;> rfl

/-- Unfolded form of `removeRole`: each cascade component, written
field-by-field. -/
lemma removeRole_def (name : String) (st : AppState) :
    removeRole name st =
      { users := st.users.map (fun u => { u with roles := u.roles.filter (fun x => x ≠ name) })
        rules :=
          { steps :=
              (if (st.rules.steps.filter (fun x => x ≠ name)).length = 0 then
                ["MANAGER", "FINANCE", "DIRECTOR"]
              else st.rules.steps.filter (fun x => x ≠ name))
            percentageRule := st.rules.percentageRule
            specificApproverRule :=
              { enabled := st.rules.specificApproverRule.enabled
                role :=
                  if st.rules.specificApproverRule.role = name then "CFO"
                  else st.rules.specificApproverRule.role }
            hybrid := st.rules.hybrid }
        customRoles := jsSetDedup (st.customRoles.filter (fun r => r ≠ name)) } := by
  by_cases h : st.rules.specificApproverRule.role = name <;>
    simp [removeRole, setCustomRoles, h]

/-!
## Claims
-/

/-- C1: the claim states that, for a pending expense whose current step has a
non-empty eligible approver set, evaluation advances the step iff the pass
condition (unanimity, or — under `hybrid.enabled` — unanimity or the
percentage threshold) holds.  The code diverges: evaluating `c1Expense`,
whose MANAGER step has the non-empty eligible set `["u-manager"]`, hybrid
disabled, and a single APPROVE by the unrelated user `u-x`, ADVANCES the
cursor to 1 even though the sole eligible approver never approved.
`rulesEval`'s unanimity block is dead code — `getCurrentStep` hands it the
step object as `cur.role`, so the eligible list it tests is always empty —
contradicting the source's own comment "Unanimous approval required for
current step". -/
theorem c1_unanimity_dead_code :
    eligibleApproverIds c1Users c1Expense (RoleVal.str "MANAGER") = ["u-manager"]
    ∧ c1Rules.hybrid.enabled = false
    ∧ c1Expense.approvals.steps[(0 : Nat)]? =
        some { role := "MANAGER"
               approvals := [{ userId := "u-x", decision := "APPROVE", comment := "", atIso := "t0" }] }
    ∧ (rulesEval c1Users c1Rules "t1" c1Expense).approvals.stepIndex = 1
    ∧ (rulesEval c1Users c1Rules "t1" c1Expense).status = "PENDING" := by
  refine ⟨by decide, rfl, by decide, by decide, by decide⟩

/-- C2 (counterexample): the claim says that with `specificApproverRule`
enabled, an APPROVE by a user holding the configured role concludes the
expense as APPROVED with `stepIndex = len(steps)`.  In src/js/app.js the
evaluator ignores `specificApproverRule` entirely: on `c2Expense` (rule
enabled for CFO, single APPROVE by the CFO-holder `u-cfo` at step 0 of 2)
the expense merely advances to step 1 and stays PENDING. -/
theorem c2_counterexample :
    c2Rules.specificApproverRule.enabled = true
    ∧ hasRole uCfo "CFO" = true
    ∧ c2Expense.approvals.steps[(0 : Nat)]? =
        some { role := "MANAGER"
               approvals := [{ userId := "u-cfo", decision := "APPROVE", comment := "ok", atIso := "t0" }] }
    ∧ (rulesEval c2Users c2Rules "t1" c2Expense).status = "PENDING"
    ∧ (rulesEval c2Users c2Rules "t1" c2Expense).approvals.stepIndex = 1 := by
  refine ⟨rfl, by decide, by decide, by decide, by decide⟩

/-- C2 (amended): the specific-approver short-circuit exists only in the
legacy evaluator (src/unnamed/part_000).  There, when
`specificApproverRule.enabled` and the scan over ALL steps (even ones with
zero decisions) finds an APPROVE by a user holding the configured role, the
expense becomes APPROVED with `stepIndex` set to the RULE SET's step count
(not the expense's own) and a history entry attributed to that approver.
The current evaluator (src/js/app.js) ignores the rule entirely. -/
theorem c2_amended_legacy_short_circuit
    (users : List User) (rules : Rules) (now : String) (e : Expense)
    (step : StepRec) (u : User)
    (hen : rules.specificApproverRule.enabled = true)
    (hstep : Legacy.approverEntry rules e = some step)
    (hfound : Legacy.findSpecificApproverInSteps users rules.specificApproverRule.role
        e.approvals.steps = some u) :
    Legacy.rulesEval users rules now e =
      { e with status := "APPROVED"
               approvals := { e.approvals with stepIndex := rules.steps.length }
               history := e.history ++ [{ atIso := now, status := "APPROVED", byUser := u.id }] } := by
  simp [Legacy.rulesEval, hstep, hen, hfound, recordHistory]

/-- Witness for C2 (amended): on `c2LegacyExpense` — current step without any
decision, APPROVE by the CFO-holder recorded at the LATER step — the legacy
evaluator concludes APPROVED at `stepIndex = 2`, attributed to `u-cfo`. -/
theorem c2_amended_witness :
    (c2Rules.specificApproverRule.enabled = true
     ∧ Legacy.approverEntry c2Rules c2LegacyExpense = some { role := "MANAGER", approvals := [] }
     ∧ Legacy.findSpecificApproverInSteps c2Users c2Rules.specificApproverRule.role
         c2LegacyExpense.approvals.steps = some uCfo)
    ∧ Legacy.rulesEval c2Users c2Rules "t1" c2LegacyExpense =
        { c2LegacyExpense with
            status := "APPROVED"
            approvals := { c2LegacyExpense.approvals with stepIndex := c2Rules.steps.length }
            history := c2LegacyExpense.history ++
              [{ atIso := "t1", status := "APPROVED", byUser := uCfo.id }] } :=
  ⟨⟨rfl, by decide, by decide⟩,
   c2_amended_legacy_short_circuit c2Users c2Rules "t1" c2LegacyExpense
     { role := "MANAGER", approvals := [] } uCfo rfl (by decide) (by decide)⟩

/-- C3: for a pending expense whose current step's decision list contains a
REJECT, evaluation sets status REJECTED — regardless of any prior APPROVE
decisions at that step — appends one history entry attributed to the most
recent decision's author, and touches nothing else: the whole approvals
block (current and later steps, cursor) is unchanged. -/
theorem c3_reject_short_circuit
    (users : List User) (rules : Rules) (now : String) (e : Expense) (step : StepRec)
    (hpending : e.status = "PENDING")
    (hstep : e.approvals.steps[e.approvals.stepIndex]? = some step)
    (hrej : step.approvals.any (fun a => a.decision = "REJECT") = true) :
    rulesEval users rules now e =
      { e with status := "REJECTED"
               history := e.history ++
                 [{ atIso := now, status := "REJECTED", byUser := lastDecider step.approvals }] }
    ∧ (rulesEval users rules now e).approvals = e.approvals := by
  rw [rulesEval_rejected users rules now e step hstep hrej]
  exact ⟨rfl, rfl⟩

/-- Witness for C3: `c3Expense` carries an APPROVE by `u-manager` followed by
a REJECT by `u-x`; evaluation rejects it, attributing the entry to `u-x`,
with the approvals block untouched. -/
theorem c3_witness :
    (c3Expense.status = "PENDING"
     ∧ c3Expense.approvals.steps[c3Expense.approvals.stepIndex]? = some c3Step
     ∧ c3Step.approvals.any (fun a => a.decision = "REJECT") = true)
    ∧ (rulesEval c1Users c1Rules "t1" c3Expense =
        { c3Expense with
            status := "REJECTED"
            history := c3Expense.history ++
              [{ atIso := "t1", status := "REJECTED", byUser := lastDecider c3Step.approvals }] }
       ∧ (rulesEval c1Users c1Rules "t1" c3Expense).approvals = c3Expense.approvals) :=
  ⟨⟨rfl, by decide, by decide⟩,
   c3_reject_short_circuit c1Users c1Rules "t1" c3Expense c3Step rfl (by decide) (by decide)⟩

/-- C4 (counterexample): the claim says that whenever the current step's
eligible approver set is empty, evaluation advances `stepIndex`, concluding
APPROVED when advancing exhausts the chain.  Two divergences, at concrete
inputs whose eligible set (the submitter `u-solo` has no manager) is empty:
(a) on `c4RejectExpense` a REJECT recorded at the step — by a user who could
never be eligible — makes evaluation REJECT instead of advancing; (b) on the
single-step `c4ExhaustExpense` evaluation sets status APPROVED but leaves
`stepIndex` at 0 instead of advancing it to `len(steps) = 1`. -/
theorem c4_counterexample :
    (eligibleApproverIds c4Users c4RejectExpense (RoleVal.str "MANAGER") = []
     ∧ (rulesEval c4Users c1Rules "t1" c4RejectExpense).status = "REJECTED"
     ∧ (rulesEval c4Users c1Rules "t1" c4RejectExpense).approvals.stepIndex = 0)
    ∧ (eligibleApproverIds c4Users c4ExhaustExpense (RoleVal.str "MANAGER") = []
     ∧ c4ExhaustExpense.approvals.steps.length = 1
     ∧ (rulesEval c4Users c1Rules "t1" c4ExhaustExpense).status = "APPROVED"
     ∧ (rulesEval c4Users c1Rules "t1" c4ExhaustExpense).approvals.stepIndex = 0) := by
  exact ⟨⟨by decide, by decide, by decide⟩, ⟨by decide, rfl, by decide, by decide⟩⟩

/-- C4 (amended): for a pending expense whose current step's eligible
approver set (for the step's role name) is empty AND whose current step
carries no REJECT decision, evaluation auto-advances without requiring any
decision: when advancing does not exhaust the chain, `stepIndex` is bumped
and the expense stays PENDING; when it would exhaust the chain, the status
becomes APPROVED (history attributed to the last recorded decision's author,
blank if none) while `stepIndex` is left unchanged rather than set to
`len(steps)`.  A REJECT at the step instead triggers the rejection
short-circuit. -/
theorem c4_amended_auto_skip
    (users : List User) (rules : Rules) (now : String) (e : Expense) (step : StepRec)
    (hpending : e.status = "PENDING")
    (hstep : e.approvals.steps[e.approvals.stepIndex]? = some step)
    (hnorej : step.approvals.any (fun a => a.decision = "REJECT") = false)
    (helig : eligibleApproverIds users e (RoleVal.str step.role) = []) :
    (e.approvals.stepIndex + 1 < e.approvals.steps.length →
      rulesEval users rules now e =
        { e with approvals := { e.approvals with stepIndex := e.approvals.stepIndex + 1 } })
    ∧ (e.approvals.steps.length ≤ e.approvals.stepIndex + 1 →
      rulesEval users rules now e =
        { e with status := "APPROVED"
                 history := e.history ++
                   [{ atIso := now, status := "APPROVED", byUser := lastDecider step.approvals }] }) := by
  rw [rulesEval_advance users rules now e step hstep hnorej]
  constructor
  · intro hlt
    rw [if_neg (by omega)]
  · intro hge
    rw [if_pos hge]
    rfl

/-- Witness for C4 (amended): `c4SkipExpense` (two steps, no decisions,
submitter without a manager) advances from step 0 to step 1 and stays
PENDING. -/
theorem c4_witness :
    (c4SkipExpense.status = "PENDING"
     ∧ c4SkipExpense.approvals.steps[c4SkipExpense.approvals.stepIndex]? =
        some { role := "MANAGER", approvals := [] }
     ∧ (List.any (α := Approval) [] (fun a => a.decision = "REJECT")) = false
     ∧ eligibleApproverIds c4Users c4SkipExpense (RoleVal.str "MANAGER") = [])
    ∧ ((c4SkipExpense.approvals.stepIndex + 1 < c4SkipExpense.approvals.steps.length →
        rulesEval c4Users c1Rules "t1" c4SkipExpense =
          { c4SkipExpense with approvals :=
              { c4SkipExpense.approvals with stepIndex := c4SkipExpense.approvals.stepIndex + 1 } })
      ∧ (c4SkipExpense.approvals.steps.length ≤ c4SkipExpense.approvals.stepIndex + 1 →
        rulesEval c4Users c1Rules "t1" c4SkipExpense =
          { c4SkipExpense with
              status := "APPROVED"
              history := c4SkipExpense.history ++
                [{ atIso := "t1", status := "APPROVED"
                   byUser := lastDecider (List.nil (α := Approval)) }] })) :=
  ⟨⟨rfl, by decide, by decide, by decide⟩,
   c4_amended_auto_skip c4Users c1Rules "t1" c4SkipExpense
     { role := "MANAGER", approvals := [] } rfl (by decide) (by decide) (by decide)⟩

/-- C5: the approval chain is a creation-time snapshot.  An expense created
by `handleExpenseSubmit` copies the rule set's `steps` (role for role,
cursor 0); afterwards, no change to the rule set alters the expense's chain
or evaluation: `getCurrentStep` and `rulesEval` give identical results under
any two rule sets, and evaluation leaves the chain's length and role
sequence untouched. -/
theorem c5_snapshot_immutable :
    ∀ (rules rules2 : Rules) (users : List User) (now id userId : String) (e : Expense),
      (newExpense rules now id userId).approvals.steps.map (fun s => s.role) = rules.steps
      ∧ (newExpense rules now id userId).approvals.stepIndex = 0
      ∧ getCurrentStep rules e = getCurrentStep rules2 e
      ∧ rulesEval users rules now e = rulesEval users rules2 now e
      ∧ (rulesEval users rules now e).approvals.steps = e.approvals.steps := by
  intro rules rules2 users now id userId e
  refine ⟨?_, rfl, rfl, rfl, rulesEval_preserves_steps users rules now e⟩
  show (rules.steps.map (fun r => ({ role := r, approvals := [] } : StepRec))).map
      (fun s => s.role) = rules.steps
  induction rules.steps with
  | nil => rfl
  | cons r rs ih => simpa using ih

/-- C6: once an expense is terminal (APPROVED or REJECTED),
`approveOrReject` always fails with the not-pending error — the status check
precedes every mutation, so the stored expenses are untouched, as the pure
error result shows — while `adminOverride` on the same expense always
succeeds, re-terminalizing it with whatever target status is given. -/
theorem c6_terminal_state
    (users : List User) (rules : Rules) (now : String) (expenses : List Expense)
    (expenseId userId decision comment : String) (e : Expense)
    (hfind : expenses.find? (fun x => x.id = expenseId) = some e)
    (hterm : e.status = "APPROVED" ∨ e.status = "REJECTED") :
    approveOrReject users rules now expenses expenseId userId decision comment =
      Except.error "Expense is not pending"
    ∧ ∀ target adminId,
        adminOverride now expenses expenseId target adminId =
          Except.ok (setFirst expenses expenseId
            (recordHistory now target adminId
              { e with status := target
                       approvals := { e.approvals with stepIndex := e.approvals.steps.length } })) := by
  have hne : ¬ e.status = "PENDING" := by
    rcases hterm with h | h <;> simp [h]
  constructor
  · simp [approveOrReject, hfind, hne]
  · intro target adminId
    simp [adminOverride, hfind]

/-- Witness for C6: the concluded `c6Expense` rejects a decision submission
with the not-pending error, and an override to REJECTED succeeds. -/
theorem c6_witness :
    (c6Expenses.find? (fun x => x.id = "e6") = some c6Expense
     ∧ (c6Expense.status = "APPROVED" ∨ c6Expense.status = "REJECTED"))
    ∧ approveOrReject [] DEFAULT_RULES "t1" c6Expenses "e6" "u-x" "APPROVE" "" =
        Except.error "Expense is not pending"
    ∧ adminOverride "t1" c6Expenses "e6" "REJECTED" "u-admin" =
        Except.ok (setFirst c6Expenses "e6"
          (recordHistory "t1" "REJECTED" "u-admin"
            { c6Expense with
                status := "REJECTED"
                approvals := { c6Expense.approvals with
                                 stepIndex := c6Expense.approvals.steps.length } })) :=
  ⟨⟨by decide, Or.inl rfl⟩,
   (c6_terminal_state [] DEFAULT_RULES "t1" c6Expenses "e6" "u-x" "APPROVE" "" c6Expense
      (by decide) (Or.inl rfl)).1,
   (c6_terminal_state [] DEFAULT_RULES "t1" c6Expenses "e6" "u-x" "APPROVE" "" c6Expense
      (by decide) (Or.inl rfl)).2 "REJECTED" "u-admin"⟩

/-- C7: for any stored expense and any target status, `adminOverride`
unconditionally succeeds: it sets the status to the target, sets the cursor
to the length of that expense's OWN `approvals.steps` (leaving the chain
itself unchanged), and appends exactly one history entry attributed to the
administrator — with no precondition on the current status. -/
theorem c7_admin_override
    (now : String) (expenses : List Expense) (expenseId target adminId : String)
    (e : Expense)
    (hfind : expenses.find? (fun x => x.id = expenseId) = some e) :
    ∃ e2,
      adminOverride now expenses expenseId target adminId =
        Except.ok (setFirst expenses expenseId e2)
      ∧ e2.status = target
      ∧ e2.approvals.stepIndex = e.approvals.steps.length
      ∧ e2.approvals.steps = e.approvals.steps
      ∧ e2.history = e.history ++ [{ atIso := now, status := target, byUser := adminId }] := by
  refine ⟨recordHistory now target adminId
    { e with status := target
             approvals := { e.approvals with stepIndex := e.approvals.steps.length } },
    ?_, rfl, rfl, rfl, rfl⟩
  simp [adminOverride, hfind]

/-- Witness for C7: overriding the pending `c7Expense` to REJECTED sets its
status and cursor and appends the admin-attributed entry. -/
theorem c7_witness :
    c7Expenses.find? (fun x => x.id = "e7") = some c7Expense
    ∧ ∃ e2,
        adminOverride "t1" c7Expenses "e7" "REJECTED" "u-admin" =
          Except.ok (setFirst c7Expenses "e7" e2)
        ∧ e2.status = "REJECTED"
        ∧ e2.approvals.stepIndex = c7Expense.approvals.steps.length
        ∧ e2.approvals.steps = c7Expense.approvals.steps
        ∧ e2.history = c7Expense.history ++
            [{ atIso := "t1", status := "REJECTED", byUser := "u-admin" }] :=
  ⟨by decide,
   c7_admin_override "t1" c7Expenses "e7" "REJECTED" "u-admin" c7Expense (by decide)⟩

/-- C8 (counterexample): the claim says removing a built-in role fails with a
role-not-removable error and performs no cascade.  The `removeRole` function
has no built-in guard and no error path at all: invoked with the built-in
name MANAGER on `c8State` it silently strips MANAGER from the user `u1` and
from the rule chain. -/
theorem c8_counterexample :
    BASE_ROLES.contains "MANAGER" = true
    ∧ c8State.users = [{ id := "u1", name := "Una", roles := ["MANAGER", "EMPLOYEE"], managerId := "" }]
    ∧ (removeRole "MANAGER" c8State).users =
        [{ id := "u1", name := "Una", roles := ["EMPLOYEE"], managerId := "" }]
    ∧ (removeRole "MANAGER" c8State).rules.steps = ["FINANCE", "DIRECTOR"] := by
  exact ⟨by decide, rfl, by decide, by decide⟩

/-- C8 (amended): there is no role-not-removable error anywhere —
`removeRole` itself never fails and cascades unconditionally, even for
built-in names (see the counterexample).  Built-in roles are protected only
at the UI call site: the roles-list click handler ignores clicks on chips of
`BASE_ROLES` members, leaving every user's role set, the rule set and the
custom-role list unchanged, silently. -/
theorem c8_amended_ui_guard (st : AppState) (role : String)
    (hbase : BASE_ROLES.contains role = true) :
    rolesListClick role st = st := by
  have hmem : role ∈ BASE_ROLES := by simpa using hbase
  simp [rolesListClick, hmem]

/-- Witness for C8 (amended): clicking the built-in MANAGER chip leaves
`c8State` unchanged. -/
theorem c8_witness :
    BASE_ROLES.contains "MANAGER" = true ∧ rolesListClick "MANAGER" c8State = c8State :=
  ⟨by decide, c8_amended_ui_guard c8State "MANAGER" (by decide)⟩

/-- C9: removing a custom role cascades: it disappears from every user's
role set, the specific-approver designation falls back to CFO exactly when
it pointed at the removed role, the role disappears from the rule chain, and
when that removal would empty the chain the chain resets to the default
MANAGER, FINANCE, DIRECTOR sequence (otherwise it is exactly the filtered
chain); finally the role leaves the custom-role list. -/
theorem c9_role_cascade (st : AppState) (name : String)
    (hcustom : name ∈ st.customRoles)
    (hnotbase : BASE_ROLES.contains name = false) :
    (∀ u ∈ (removeRole name st).users, name ∉ u.roles)
    ∧ ((removeRole name st).rules.specificApproverRule.role =
        if st.rules.specificApproverRule.role = name then "CFO"
        else st.rules.specificApproverRule.role)
    ∧ name ∉ (removeRole name st).rules.steps
    ∧ ((st.rules.steps.filter (fun x => x ≠ name)).length = 0 →
        (removeRole name st).rules.steps = ["MANAGER", "FINANCE", "DIRECTOR"])
    ∧ ((st.rules.steps.filter (fun x => x ≠ name)).length ≠ 0 →
        (removeRole name st).rules.steps = st.rules.steps.filter (fun x => x ≠ name))
    ∧ name ∉ (removeRole name st).customRoles := by
  have hnb : name ∉ BASE_ROLES := by simpa using hnotbase
  have hnbD : name ∉ (["MANAGER", "FINANCE", "DIRECTOR"] : List String) := by
    intro hmem
    apply hnb
    simp only [BASE_ROLES, List.mem_cons] at hmem ⊢
    tauto
  have husers : (removeRole name st).users =
      st.users.map (fun u => { u with roles := u.roles.filter (fun x => x ≠ name) }) := by
    rw [removeRole_def]
  have hspec : (removeRole name st).rules.specificApproverRule.role =
      (if st.rules.specificApproverRule.role = name then "CFO"
       else st.rules.specificApproverRule.role) := by
    rw [removeRole_def]
  have hsteps : (removeRole name st).rules.steps =
      (if (st.rules.steps.filter (fun x => x ≠ name)).length = 0 then
        ["MANAGER", "FINANCE", "DIRECTOR"]
      else st.rules.steps.filter (fun x => x ≠ name)) := by
    rw [removeRole_def]
  have hcust : (removeRole name st).customRoles =
      jsSetDedup (st.customRoles.filter (fun r => r ≠ name)) := by
    rw [removeRole_def]
  refine ⟨?_, hspec, ?_, ?_, ?_, ?_⟩
  · intro u hu
    rw [husers] at hu
    simp only [List.mem_map] at hu
    obtain ⟨v, hv, rfl⟩ := hu
    simp [List.mem_filter]
  · rw [hsteps]
    by_cases hlen : (st.rules.steps.filter (fun x => x ≠ name)).length = 0
    · rw [if_pos hlen]
      exact hnbD
    · rw [if_neg hlen]
      simp [List.mem_filter]
  · intro hlen
    rw [hsteps, if_pos hlen]
  · intro hlen
    rw [hsteps, if_neg hlen]
  · rw [hcust]
    intro hmem
    have h2 := mem_jsSetDedup hmem
    simp [List.mem_filter] at h2

/-- Witness for C9: removing the custom role LEGAL from `c9State` strips it
from the user `u1`, resets the specific-approver role to CFO, and resets the
emptied chain to MANAGER, FINANCE, DIRECTOR. -/
theorem c9_witness :
    ("LEGAL" ∈ c9State.customRoles ∧ BASE_ROLES.contains "LEGAL" = false)
    ∧ ((∀ u ∈ (removeRole "LEGAL" c9State).users, "LEGAL" ∉ u.roles)
       ∧ ((removeRole "LEGAL" c9State).rules.specificApproverRule.role =
           if c9State.rules.specificApproverRule.role = "LEGAL" then "CFO"
           else c9State.rules.specificApproverRule.role)
       ∧ "LEGAL" ∉ (removeRole "LEGAL" c9State).rules.steps
       ∧ ((c9State.rules.steps.filter (fun x => x ≠ "LEGAL")).length = 0 →
           (removeRole "LEGAL" c9State).rules.steps = ["MANAGER", "FINANCE", "DIRECTOR"])
       ∧ ((c9State.rules.steps.filter (fun x => x ≠ "LEGAL")).length ≠ 0 →
           (removeRole "LEGAL" c9State).rules.steps =
             c9State.rules.steps.filter (fun x => x ≠ "LEGAL"))
       ∧ "LEGAL" ∉ (removeRole "LEGAL" c9State).customRoles) :=
  ⟨⟨by decide, by decide⟩, c9_role_cascade c9State "LEGAL" (by decide) (by decide)⟩

/-- C10: `approveOrReject` records the decision argument verbatim only when
it strictly equals the string APPROVE; every other value (for example a
lower-case "approve") is stored as REJECT on the current step, and that
stored REJECT then triggers the rejection short-circuit, so the expense
comes back REJECTED. -/
theorem c10_decision_normalization
    (users : List User) (rules : Rules) (now : String) (expenses : List Expense)
    (expenseId userId decision comment : String) (e : Expense) (step : StepRec)
    (hfind : expenses.find? (fun x => x.id = expenseId) = some e)
    (hpending : e.status = "PENDING")
    (hstep : e.approvals.steps[e.approvals.stepIndex]? = some step) :
    ∃ e2,
      approveOrReject users rules now expenses expenseId userId decision comment =
        Except.ok (setFirst expenses expenseId e2, e2.status)
      ∧ e2.approvals.steps[e.approvals.stepIndex]? =
          some { step with approvals := step.approvals ++
            [{ userId := userId
               decision := if decision = "APPROVE" then "APPROVE" else "REJECT"
               comment := comment
               atIso := now }] }
      ∧ (decision ≠ "APPROVE" → e2.status = "REJECTED") := by
  have hae : approverEntry rules e = some step := by
    simp [approverEntry, getCurrentStep, hstep]
  refine ⟨rulesEval users rules now
      { e with approvals :=
          { e.approvals with steps :=
              (e.approvals.steps.set e.approvals.stepIndex
                { step with approvals := step.approvals ++
                    [{ userId := userId
                       decision := if decision = "APPROVE" then "APPROVE" else "REJECT"
                       comment := comment
                       atIso := now }] }) } }, ?_, ?_, ?_⟩
  · simp [approveOrReject, hfind, hpending, hae]
  · rw [rulesEval_preserves_steps]
    exact getElem?_set_self _ _ _ _ hstep
  · intro hd
    rw [show (if decision = "APPROVE" then "APPROVE" else "REJECT") = "REJECT" from if_neg hd]
    rw [rulesEval_rejected _ _ _ _
      { step with approvals := step.approvals ++
          [{ userId := userId, decision := "REJECT", comment := comment, atIso := now }] }
      (getElem?_set_self _ _ _ _ hstep) (by simp)]
    rfl

/-- Witness for C10: submitting the decision string "approve" (lower case)
for the pending `c10Expense` stores a REJECT on its MANAGER step and returns
status REJECTED. -/
theorem c10_witness :
    (c10Expenses.find? (fun x => x.id = "e10") = some c10Expense
     ∧ c10Expense.status = "PENDING"
     ∧ c10Expense.approvals.steps[c10Expense.approvals.stepIndex]? =
        some { role := "MANAGER", approvals := [] })
    ∧ ∃ e2,
        approveOrReject [uEmp, uMgr] DEFAULT_RULES "t1" c10Expenses "e10" "u-manager"
            "approve" "lgtm" =
          Except.ok (setFirst c10Expenses "e10" e2, e2.status)
        ∧ e2.approvals.steps[c10Expense.approvals.stepIndex]? =
            some { role := "MANAGER"
                   approvals :=
                     [{ userId := "u-manager"
                        decision := if "approve" = "APPROVE" then "APPROVE" else "REJECT"
                        comment := "lgtm"
                        atIso := "t1" }] }
        ∧ ("approve" ≠ "APPROVE" → e2.status = "REJECTED") :=
  ⟨⟨by decide, rfl, by decide⟩,
   c10_decision_normalization [uEmp, uMgr] DEFAULT_RULES "t1" c10Expenses "e10" "u-manager"
     "approve" "lgtm" c10Expense { role := "MANAGER", approvals := [] }
     (by decide) rfl (by decide)⟩

end EMS

